import Mathlib

/-!
# Verification of the DNS server's wire-format codec and forwarding engine

Shallow embedding of the Go sources of `dns-server-go`:

* `app/dns/header.go`   — `DNSHeader.Parse`, `DNSHeader.BuildResponse`, `DNSHeader.Encode`
* `app/dns/question.go` — `decodeName`, `Question.Parse`, `Question.Encode`
* `app/dns/answer.go`   — `DNSAnswer.Parse`, `DNSAnswer.Encode`
* the `dns` package message coordinator — `DNSMessage.Parse`, `DNSMessage.ParseComplete`,
  `DNSMessage.BuildResponse`, `DNSMessage.Encode`
* `app/server.go`       — `DNSServer.forwardMultipleQuestions`

Buffers are lists of bytes (`List Nat`, each entry a byte value); Go's
`uint16`/`uint32` values are `Nat`s with explicit `% 2^16` / bounds where the
Go code truncates.  The network is modelled as a function from (exchange
index, sent datagram) to an optional reply datagram; `none` models a
connect/send/receive failure of `forwardSingleQuery`.
-/

namespace DnsGo

/-- A byte buffer (Go `[]byte`). -/
abbrev Bytes := List Nat

/-- `data[i]`, with Go-style bounds handled by the callers' explicit guards.
Out-of-range reads default to 0 (they never occur behind the source's guards). -/
def byteAt (data : Bytes) (i : Nat) : Nat := data.getD i 0

/-- `binary.BigEndian.Uint16(data[i:i+2])`. -/
def be16 (data : Bytes) (i : Nat) : Nat := byteAt data i * 256 + byteAt data (i + 1)

/-- `binary.BigEndian.Uint32(data[i:i+4])`. -/
def be32 (data : Bytes) (i : Nat) : Nat :=
  ((byteAt data i * 256 + byteAt data (i + 1)) * 256 + byteAt data (i + 2)) * 256
    + byteAt data (i + 3)

/-- `binary.BigEndian.PutUint16`: the two big-endian bytes of a 16-bit value. -/
def enc16 (v : Nat) : Bytes := [v / 256 % 256, v % 256]

/-- `binary.BigEndian.PutUint32`: the four big-endian bytes of a 32-bit value. -/
def enc32 (v : Nat) : Bytes :=
  [v / 16777216 % 256, v / 65536 % 256, v / 256 % 256, v % 256]

/-- Go `uint16(n)` conversion. -/
def u16 (n : Nat) : Nat := n % 65536

/-- `DNSHeader` (app/dns/header.go). -/
structure DNSHeader where
  ID      : Nat
  Flags   : Nat
  QDCount : Nat
  ANCount : Nat
  NSCount : Nat
  ARCount : Nat
deriving Repr, DecidableEq

/-- `DNSHeader.Parse` (app/dns/header.go): fails iff fewer than 12 bytes,
otherwise six big-endian 16-bit reads. -/
def headerParse (data : Bytes) : Option DNSHeader :=
  if data.length < 12 then none
  else some
    { ID := be16 data 0, Flags := be16 data 2, QDCount := be16 data 4,
      ANCount := be16 data 6, NSCount := be16 data 8, ARCount := be16 data 10 }

/-- `DNSHeader.Encode` (app/dns/header.go): 12 bytes, six big-endian fields. -/
def headerEncode (h : DNSHeader) : Bytes :=
  enc16 h.ID ++ enc16 h.Flags ++ enc16 h.QDCount ++ enc16 h.ANCount
    ++ enc16 h.NSCount ++ enc16 h.ARCount

/-- `DNSHeader.BuildResponse` (app/dns/header.go): QR=1, OPCODE and RD copied
from the request, RCODE 0 for OPCODE 0 and 4 otherwise; note that the Go code
copies `QDCount` from the request and zeroes the other counters. -/
def headerBuildResponse (h : DNSHeader) : DNSHeader :=
  let opcode := (h.Flags >>> 11) &&& 15
  let rcode : Nat := if opcode ≠ 0 then 4 else 0
  let flags := (1 <<< 15) ||| (opcode <<< 11) ||| (h.Flags &&& 256) ||| rcode
  { ID := h.ID, Flags := flags, QDCount := h.QDCount,
    ANCount := 0, NSCount := 0, ARCount := 0 }

/-- The body of `decodeName`'s `for` loop (app/dns/question.go), with the Go
`loops`/`maxLoops` counter turned into structural fuel: the Go loop errors out
on its 1001st iteration, i.e. it performs at most 1000 iterations. -/
def decodeNameLoop (data : Bytes) (fuel : Nat) (currentOffset : Nat) (name : Bytes)
    (bytesConsumed : Nat) (jumped : Bool) : Option (Bytes × Nat) :=
  match fuel with
  | 0 => none
  | fuel + 1 =>
    if data.length ≤ currentOffset then none
    else
      let b := byteAt data currentOffset
      if b &&& 192 = 192 then
        if data.length ≤ currentOffset + 1 then none
        else
          let bc := if jumped then bytesConsumed else bytesConsumed + 2
          let newOffset := be16 data currentOffset &&& 16383
          decodeNameLoop data fuel newOffset name bc true
      else
        let bc := if jumped then bytesConsumed else bytesConsumed + 1
        let co := currentOffset + 1
        if b = 0 then some (name ++ [0], bc)
        else if data.length < co + b then none
        else
          decodeNameLoop data fuel (co + b) (name ++ b :: ((data.drop co).take b))
            (if jumped then bc else bc + b) jumped

/-- Go `maxLoops` in `decodeName`. -/
def maxLoops : Nat := 1000

/-- `decodeName` (app/dns/question.go): returns the expanded name bytes and
the number of bytes consumed at the original offset. -/
def decodeName (data : Bytes) (offset : Nat) : Option (Bytes × Nat) :=
  decodeNameLoop data maxLoops offset [] 0 false

/-- `Question` (app/dns/question.go). -/
structure Question where
  QName  : Bytes
  QType  : Nat
  QClass : Nat
deriving Repr, DecidableEq

/-- `Question.Parse` (app/dns/question.go): name, then QTYPE/QCLASS; returns
the new absolute offset. -/
def questionParse (data : Bytes) (offset : Nat) : Option (Question × Nat) :=
  match decodeName data offset with
  | none => none
  | some (name, bytesConsumed) =>
    let currentOffset := offset + bytesConsumed
    if data.length < currentOffset + 4 then none
    else some
      ({ QName := name, QType := be16 data currentOffset,
         QClass := be16 data (currentOffset + 2) }, currentOffset + 4)

/-- `Question.Encode` (app/dns/question.go). -/
def questionEncode (q : Question) : Bytes := q.QName ++ enc16 q.QType ++ enc16 q.QClass

/-- `DNSAnswer` (app/dns/answer.go). -/
structure DNSAnswer where
  Name     : Bytes
  Type'    : Nat
  Class    : Nat
  TTL      : Nat
  RDLength : Nat
  RData    : Bytes
deriving Repr, DecidableEq

/-- `DNSAnswer.Parse` (app/dns/answer.go): name, then the 10 fixed bytes
TYPE/CLASS/TTL/RDLENGTH, then RDLENGTH bytes of RDATA; returns the new
absolute offset. -/
def answerParse (data : Bytes) (offset : Nat) : Option (DNSAnswer × Nat) :=
  match decodeName data offset with
  | none => none
  | some (name, bytesConsumed) =>
    let o := offset + bytesConsumed
    if data.length < o + 10 then none
    else
      let rdlength := be16 data (o + 8)
      if data.length < o + 10 + rdlength then none
      else some
        ({ Name := name, Type' := be16 data o, Class := be16 data (o + 2),
           TTL := be32 data (o + 4), RDLength := rdlength,
           RData := (data.drop (o + 10)).take rdlength }, o + 10 + rdlength)

/-- `DNSAnswer.Encode` (app/dns/answer.go). -/
def answerEncode (a : DNSAnswer) : Bytes :=
  a.Name ++ enc16 a.Type' ++ enc16 a.Class ++ enc32 a.TTL ++ enc16 a.RDLength ++ a.RData

/-- `DNSMessage` (dns package). -/
structure DNSMessage where
  Header    : DNSHeader
  Questions : List Question
  Answers   : List DNSAnswer
deriving Repr, DecidableEq

/-- The question-parsing loop of `DNSMessage.Parse`/`ParseComplete`:
`count` remaining iterations, `offset` the shared cursor. -/
def parseQuestionsLoop (data : Bytes) : Nat → Nat → List Question →
    Option (List Question × Nat)
  | 0, offset, acc => some (acc, offset)
  | n + 1, offset, acc =>
    match questionParse data offset with
    | none => none
    | some (q, newOffset) => parseQuestionsLoop data n newOffset (acc ++ [q])

/-- The answer-parsing loop of `DNSMessage.ParseComplete`. -/
def parseAnswersLoop (data : Bytes) : Nat → Nat → List DNSAnswer →
    Option (List DNSAnswer × Nat)
  | 0, offset, acc => some (acc, offset)
  | n + 1, offset, acc =>
    match answerParse data offset with
    | none => none
    | some (a, newOffset) => parseAnswersLoop data n newOffset (acc ++ [a])

/-- `DNSMessage.ParseComplete` (dns package): header, then `QDCount`
questions, then `ANCount` answers. -/
def parseComplete (data : Bytes) : Option DNSMessage :=
  match headerParse data with
  | none => none
  | some h =>
    match parseQuestionsLoop data h.QDCount 12 [] with
    | none => none
    | some (qs, offset) =>
      match parseAnswersLoop data h.ANCount offset [] with
      | none => none
      | some (ans, _) => some { Header := h, Questions := qs, Answers := ans }

/-- `DNSMessage.Encode`: header bytes, then encoded questions, then encoded
answers, in stored order. -/
def msgEncode (msg : DNSMessage) : Bytes :=
  headerEncode msg.Header ++ (msg.Questions.map questionEncode).flatten
    ++ (msg.Answers.map answerEncode).flatten

/-- `DNSMessage.BuildResponse` (dns package / dns_message.go): response
header with both counters set to the question count, questions copied, one
synthetic answer per question. -/
def msgBuildResponse (msg : DNSMessage) : DNSMessage :=
  let header := headerBuildResponse msg.Header
  { Header := { header with
      QDCount := u16 msg.Questions.length,
      ANCount := u16 msg.Questions.length },
    Questions := msg.Questions,
    Answers := msg.Questions.map (fun q =>
      { Name := q.QName, Type' := q.QType, Class := q.QClass, TTL := 60,
        RDLength := 4, RData := [8, 8, 8, 8] }) }

/-- The synthetic single-question message built inside
`forwardMultipleQuestions` (app/server.go): original ID and flags,
`QDCount=1`, `ANCount=0`, the one question, no answers. -/
def subQuery (request : DNSMessage) (q : Question) : DNSMessage :=
  { Header := { ID := request.Header.ID, Flags := request.Header.Flags,
                QDCount := 1, ANCount := 0, NSCount := 0, ARCount := 0 },
    Questions := [q], Answers := [] }

/-- The network seen by the forwarding engine: exchange index and sent
datagram to optional reply datagram (`none` = `forwardSingleQuery` failed). -/
abbrev Upstream := Nat → Bytes → Option Bytes

/-- The answers contributed by the `i`-th sub-query of
`forwardMultipleQuestions`: the engine encodes the synthetic message, sends
it, and on success parses the reply with `ParseComplete` and collects its
`Answers`; a network or decode failure makes the sub-query contribute
nothing (the Go loop does `continue`). -/
def subQueryAnswers (net : Upstream) (request : DNSMessage) (i : Nat)
    (q : Question) : List DNSAnswer :=
  match net i (msgEncode (subQuery request q)) with
  | none => []
  | some bytes =>
    match parseComplete bytes with
    | none => []
    | some resp => resp.Answers

/-- The `for _, question := range request.Questions` loop of
`forwardMultipleQuestions`, accumulating `allAnswers`. -/
def collectAnswersLoop (net : Upstream) (request : DNSMessage) :
    List Question → Nat → List DNSAnswer → List DNSAnswer
  | [], _, acc => acc
  | q :: rest, i, acc =>
    collectAnswersLoop net request rest (i + 1) (acc ++ subQueryAnswers net request i q)

/-- The merged response message built by `forwardMultipleQuestions`
(app/server.go). -/
def mergedMessage (net : Upstream) (request : DNSMessage) : DNSMessage :=
  let allAnswers := collectAnswersLoop net request request.Questions 0 []
  { Header := { ID := request.Header.ID,
                Flags := (headerBuildResponse request.Header).Flags,
                QDCount := u16 request.Questions.length,
                ANCount := u16 allAnswers.length,
                NSCount := 0, ARCount := 0 },
    Questions := request.Questions,
    Answers := allAnswers }

/-- `forwardMultipleQuestions` returns the merged message's encoding. -/
def forwardMultipleQuestions (net : Upstream) (request : DNSMessage) : Bytes :=
  msgEncode (mergedMessage net request)

/-- Bit 8 of a value, extracted the two ways the source uses it. -/
lemma and_256_eq (x : Nat) : x &&& 256 = ((x >>> 8) &&& 1) * 256 := by
  have h1 : x &&& 256 = (x.testBit 8).toNat * 256 := by
    have h := Nat.and_two_pow x 8
    norm_num at h
    exact h
  have h2 : (x >>> 8) &&& 1 = (x.testBit 8).toNat := by
    rw [Nat.and_one_is_mod, Nat.testBit_to_div_mod, Nat.shiftRight_eq_div_pow]
    norm_num
    rcases Nat.mod_two_eq_zero_or_one (x / 256) with h | h <;> simp [h]
  rw [h1, h2]

/-- Field extraction from the response flag word built by
`DNSHeader.BuildResponse`, for any opcode nibble, RD bit and rcode. -/
lemma buildFlags_spec (o r c : Nat) (ho : o ≤ 15) (hr : r ≤ 1) (hc : c = 0 ∨ c = 4) :
    (((1 <<< 15) ||| (o <<< 11) ||| (r * 256) ||| c) >>> 15) &&& 1 = 1 ∧
    (((1 <<< 15) ||| (o <<< 11) ||| (r * 256) ||| c) >>> 11) &&& 15 = o ∧
    (((1 <<< 15) ||| (o <<< 11) ||| (r * 256) ||| c) >>> 8) &&& 1 = r ∧
    (((1 <<< 15) ||| (o <<< 11) ||| (r * 256) ||| c) >>> 10) &&& 1 = 0 ∧
    (((1 <<< 15) ||| (o <<< 11) ||| (r * 256) ||| c) >>> 9) &&& 1 = 0 ∧
    (((1 <<< 15) ||| (o <<< 11) ||| (r * 256) ||| c) >>> 7) &&& 1 = 0 ∧
    (((1 <<< 15) ||| (o <<< 11) ||| (r * 256) ||| c) >>> 4) &&& 7 = 0 ∧
    ((1 <<< 15) ||| (o <<< 11) ||| (r * 256) ||| c) &&& 15 = c := by
  interval_cases o <;> interval_cases r <;> rcases hc with rfl | rfl <;> decide

/-- C4: for every request header `h`, the flags of `BuildResponse h` have
QR=1, OPCODE copied from `h`, RD copied from `h`, AA=TC=RA=Z=0, and RCODE=0
when `h`'s OPCODE is 0 and RCODE=4 otherwise (wire layout MSB→LSB:
QR(1) OPCODE(4) AA(1) TC(1) RD(1) RA(1) Z(3) RCODE(4)). -/
theorem c4_response_flags (h : DNSHeader) :
    ((headerBuildResponse h).Flags >>> 15) &&& 1 = 1 ∧
    ((headerBuildResponse h).Flags >>> 11) &&& 15 = (h.Flags >>> 11) &&& 15 ∧
    ((headerBuildResponse h).Flags >>> 8) &&& 1 = (h.Flags >>> 8) &&& 1 ∧
    ((headerBuildResponse h).Flags >>> 10) &&& 1 = 0 ∧
    ((headerBuildResponse h).Flags >>> 9) &&& 1 = 0 ∧
    ((headerBuildResponse h).Flags >>> 7) &&& 1 = 0 ∧
    ((headerBuildResponse h).Flags >>> 4) &&& 7 = 0 ∧
    (headerBuildResponse h).Flags &&& 15 = (if (h.Flags >>> 11) &&& 15 = 0 then 0 else 4) := by
  have hrb := and_256_eq h.Flags
  have hf : (headerBuildResponse h).Flags =
      (1 <<< 15) ||| (((h.Flags >>> 11) &&& 15) <<< 11) |||
        (((h.Flags >>> 8) &&& 1) * 256) |||
        (if (h.Flags >>> 11) &&& 15 = 0 then 0 else 4) := by
    simp only [headerBuildResponse, hrb]
    by_cases h0 : (h.Flags >>> 11) &&& 15 = 0 <;> simp [h0]
  rw [hf]
  exact buildFlags_spec ((h.Flags >>> 11) &&& 15) ((h.Flags >>> 8) &&& 1)
    (if (h.Flags >>> 11) &&& 15 = 0 then 0 else 4) Nat.and_le_right Nat.and_le_right
    (by by_cases h0 : (h.Flags >>> 11) &&& 15 = 0 <;> simp [h0])

/-- C1 (counterexample): the claim that `BuildResponse` returns a header
whose QDCOUNT and ANCOUNT are both 0 is false — on a request header with
QDCOUNT 1 the result's QDCOUNT is 1, since the Go code copies
`h.QDCount` into the response. -/
theorem c1_counterexample :
    ¬ ((headerBuildResponse ⟨4660, 0, 1, 0, 0, 0⟩).QDCount = 0 ∧
       (headerBuildResponse ⟨4660, 0, 1, 0, 0, 0⟩).ANCount = 0) := by decide

/-- C1 (amended): `BuildResponse` returns a header whose ANCOUNT is 0 and
whose QDCOUNT is copied unchanged from the request header; the caller still
sets both once the final section sizes are known. -/
theorem c1_amended (h : DNSHeader) :
    (headerBuildResponse h).ANCount = 0 ∧ (headerBuildResponse h).QDCount = h.QDCount :=
  ⟨rfl, rfl⟩

/-- A walk that starts inside a set `S` of mutually-referencing pointer
positions never leaves `S` and so exhausts the iteration ceiling. -/
lemma decodeNameLoop_cyclic (data : Bytes) (S : Nat → Prop)
    (hS : ∀ p, S p → p + 1 < data.length ∧ byteAt data p &&& 192 = 192 ∧
      S (be16 data p &&& 16383)) :
    ∀ fuel p name bc jumped, S p →
      decodeNameLoop data fuel p name bc jumped = none := by
  intro fuel
  induction fuel with
  | zero => intro p name bc jumped _; rfl
  | succ n ih =>
    intro p name bc jumped hp
    obtain ⟨h1, h2, h3⟩ := hS p hp
    have hb1 : ¬ data.length ≤ p := by omega
    have hb2 : ¬ data.length ≤ p + 1 := by omega
    simp only [decodeNameLoop, hb1, if_false, h2, if_true, hb2, ite_true, ite_false]
    exact ih _ _ _ _ h3

/-- C5: `decodeName` is total by construction (the Go loop counter bounds it
by 1000 iterations, modelled as structural fuel), and on any cyclic or
self-referencing pointer chain — any set `S` of in-bounds pointer positions
whose targets stay in `S` — it exhausts that ceiling and returns the
`MalformedName` error (`none`) instead of looping forever. -/
theorem c5_pointer_cycle (data : Bytes) (S : Nat → Prop) (offset : Nat)
    (hoff : S offset)
    (hS : ∀ p, S p → p + 1 < data.length ∧ byteAt data p &&& 192 = 192 ∧
      S (be16 data p &&& 16383)) :
    decodeName data offset = none :=
  decodeNameLoop_cyclic data S hS maxLoops offset [] 0 false hoff

/-- C5 witness: the 2-byte buffer `C0 00` is a pointer at offset 0 whose
target is offset 0 itself; decoding it fails. -/
theorem c5_witness :
    (0 : Nat) + 1 < ([192, 0] : Bytes).length ∧
    byteAt [192, 0] 0 &&& 192 = 192 ∧
    be16 [192, 0] 0 &&& 16383 = 0 ∧
    decodeName [192, 0] 0 = none :=
  ⟨by decide, by decide, by decide,
   c5_pointer_cycle [192, 0] (fun p => p = 0) 0 rfl
     (by intro p hp; subst hp; exact ⟨by decide, by decide, by decide⟩)⟩

/-- Modelled from the spec: the number of bytes the name occupies "as
written at the original offset" — the sum of all label-length prefixes and
label bytes up to the first pointer or the terminating zero byte, with the
terminator contributing 1 byte and the first pointer exactly 2 bytes and
nothing beyond it counted. -/
def specWrittenBytes (data : Bytes) : Nat → Nat → Nat → Option Nat
  | 0, _, _ => none
  | fuel + 1, offset, acc =>
    if data.length ≤ offset then none
    else
      let b := byteAt data offset
      if b &&& 192 = 192 then some (acc + 2)
      else if b = 0 then some (acc + 1)
      else specWrittenBytes data fuel (offset + 1 + b) (acc + 1 + b)

/-- Once `jumped` is set, `decodeName`'s loop never changes `bytesConsumed`
again: a successful result returns the `bytesConsumed` it entered with. -/
lemma decodeNameLoop_jumped_bc (data : Bytes) :
    ∀ fuel off name bc nm c,
      decodeNameLoop data fuel off name bc true = some (nm, c) → c = bc := by
  intro fuel
  induction fuel with
  | zero => intro off name bc nm c h; simp [decodeNameLoop] at h
  | succ n ih =>
    intro off name bc nm c h
    simp only [decodeNameLoop, ite_true, ite_false] at h
    split at h
    · exact absurd h (by simp)
    · split at h
      · split at h
        · exact absurd h (by simp)
        · exact ih _ _ _ _ _ h
      · split at h
        · simp at h
          omega
        · split at h
          · exact absurd h (by simp)
          · exact ih _ _ _ _ _ h

/-- Before any jump, every byte the loop walks over is also counted by
`specWrittenBytes`: a successful decode reports exactly the spec's
written-name size. -/
lemma decodeNameLoop_prejump (data : Bytes) :
    ∀ fuel off name bc nm c,
      decodeNameLoop data fuel off name bc false = some (nm, c) →
      specWrittenBytes data fuel off bc = some c := by
  intro fuel
  induction fuel with
  | zero => intro off name bc nm c h; simp [decodeNameLoop] at h
  | succ n ih =>
    intro off name bc nm c h
    simp only [decodeNameLoop, ite_true, ite_false] at h
    simp only [specWrittenBytes]
    split at h
    · exact absurd h (by simp)
    · rename_i hoob
      split at h
      · rename_i hptr
        split at h
        · exact absurd h (by simp)
        · have := decodeNameLoop_jumped_bc data _ _ _ _ _ _ h
          simp [hoob, hptr, this]
      · rename_i hptr
        split at h
        · rename_i hzero
          simp at h
          simp [hoob, hptr, hzero]
          omega
        · rename_i hzero
          split at h
          · exact absurd h (by simp)
          · have := ih _ _ _ _ _ h
            simp [hoob, hptr, hzero]
            exact this

/-- The spec's compression-pointer test buffer: twelve header-placeholder
bytes, the label sequence `3www6google3com0` at offset 12, and the pointer
`C0 0C` at offset 28. -/
def exBuf : Bytes :=
  List.replicate 12 0 ++ [3,119,119,119,6,103,111,111,103,108,101,3,99,111,109,0] ++ [192, 12]

/-- The expanded wire form of `www.google.com`. -/
def exName : Bytes := [3,119,119,119,6,103,111,111,103,108,101,3,99,111,109,0]

set_option maxRecDepth 8000 in
/-- C2: whenever `decodeName` succeeds, the reported `bytes_consumed` equals
exactly the size of the name as written at the original offset (labels and
terminator when no pointer occurs; the bytes before the first pointer plus
exactly 2 when one does, nothing after the jump counting); in particular,
decoding at the pointer `C0 0C` of `exBuf` yields the same expanded bytes as
decoding the labels at offset 12, with `bytes_consumed = 2`. -/
theorem c2_bytes_consumed (data : Bytes) (offset : Nat) (name : Bytes) (c : Nat)
    (h : decodeName data offset = some (name, c)) :
    specWrittenBytes data maxLoops offset 0 = some c ∧
    decodeName exBuf 28 = some (exName, 2) ∧
    decodeName exBuf 12 = some (exName, 16) := by
  refine ⟨decodeNameLoop_prejump data maxLoops offset [] 0 name c h, by decide, by decide⟩

set_option maxRecDepth 8000 in
/-- C2 witness: the pointer decode of `exBuf` consumes exactly 2 bytes. -/
theorem c2_witness :
    decodeName exBuf 28 = some (exName, 2) ∧
    specWrittenBytes exBuf maxLoops 28 0 = some 2 :=
  ⟨by decide, (c2_bytes_consumed exBuf 28 exName 2 (by decide)).1⟩

/-- One failing step of the name loop: a non-pointer, non-zero label length
byte whose label would run past the end of the buffer. -/
lemma decodeNameLoop_label_oob (data : Bytes) (off : Nat) (name : Bytes) (bc : Nat)
    (j : Bool) (fuel : Nat) (h1 : off < data.length)
    (h2 : byteAt data off &&& 192 ≠ 192) (h3 : byteAt data off ≠ 0)
    (h4 : data.length < off + 1 + byteAt data off) :
    decodeNameLoop data (fuel + 1) off name bc j = none := by
  simp only [decodeNameLoop]
  rw [if_neg (by omega), if_neg h2, if_neg h3, if_pos h4]

/-- C9: the malformed-input conditions — `DNSHeader.Parse` fails exactly
when fewer than 12 bytes are available; `decodeName` fails when a
label-length prefix would read past the buffer end; `DNSAnswer.Parse` fails
when the 10 fixed bytes after the name, or the RDLENGTH bytes of RDATA,
would exceed the buffer. -/
theorem c9_malformed (data : Bytes) (offset : Nat) :
    (headerParse data = none ↔ data.length < 12) ∧
    (offset < data.length → byteAt data offset &&& 192 ≠ 192 → byteAt data offset ≠ 0 →
      data.length < offset + 1 + byteAt data offset → decodeName data offset = none) ∧
    (∀ name c, decodeName data offset = some (name, c) →
      data.length < offset + c + 10 → answerParse data offset = none) ∧
    (∀ name c, decodeName data offset = some (name, c) →
      offset + c + 10 ≤ data.length →
      data.length < offset + c + 10 + be16 data (offset + c + 8) →
      answerParse data offset = none) := by
  refine ⟨?_, ?_, ?_, ?_⟩
  · unfold headerParse
    by_cases h : data.length < 12 <;> simp [h]
  · intro h1 h2 h3 h4
    unfold decodeName
    rw [show maxLoops = 999 + 1 from rfl]
    exact decodeNameLoop_label_oob data offset [] 0 false 999 h1 h2 h3 h4
  · intro name c h hlen
    unfold answerParse
    rw [h]
    simp [hlen]
  · intro name c h hlen1 hlen2
    have g1 : ¬ (data.length < offset + c + 10) := by omega
    unfold answerParse
    rw [h]
    simp [g1, hlen2]

/-- C9 witness: a 3-byte header buffer, a label running past the end, an
answer with no room for the fixed fields, and an answer whose RDLENGTH (5)
exceeds the remaining buffer. -/
theorem c9_witness :
    headerParse [0, 1, 2] = none ∧
    decodeName [2, 97] 0 = none ∧
    answerParse [0] 0 = none ∧
    answerParse [0, 0, 1, 0, 1, 0, 0, 0, 0, 0, 5] 0 = none :=
  ⟨(c9_malformed [0, 1, 2] 0).1.mpr (by decide),
   (c9_malformed [2, 97] 0).2.1 (by decide) (by decide) (by decide) (by decide),
   (c9_malformed [0] 0).2.2.1 [0] 1 (by decide) (by decide),
   (c9_malformed [0, 0, 1, 0, 1, 0, 0, 0, 0, 0, 5] 0).2.2.2 [0] 1 (by decide) (by decide)
     (by decide)⟩


inductive ValidName : Bytes → Prop
  | term : ValidName [0]
  | label (L : Nat) (lab rest : Bytes) (h1 : 0 < L) (h2 : L ≤ 63)
      (h3 : lab.length = L) (h4 : ValidName rest) : ValidName (L :: (lab ++ rest))

lemma byteAt_append_right (l m : Bytes) (k : Nat) :
    byteAt (l ++ m) (l.length + k) = byteAt m k := by
  unfold byteAt
  rw [List.getD_append_right l m 0 _ (Nat.le_add_right _ _), Nat.add_sub_cancel_left]

lemma be16_append_right (l m : Bytes) (k : Nat) :
    be16 (l ++ m) (l.length + k) = be16 m k := by
  unfold be16
  rw [byteAt_append_right, show l.length + k + 1 = l.length + (k + 1) by omega,
    byteAt_append_right]

lemma decodeNameLoop_valid (n : Bytes) (hn : ValidName n) :
    ∀ fuel pre post name bc, n.length ≤ fuel →
      decodeNameLoop (pre ++ (n ++ post)) fuel pre.length name bc false
        = some (name ++ n, bc + n.length) := by
  induction hn with
  | term =>
    intro fuel pre post name bc hfuel
    obtain ⟨f, rfl⟩ : ∃ f, fuel = f + 1 := ⟨fuel - 1, by simp at hfuel; omega⟩
    have hb : byteAt (pre ++ ([0] ++ post)) pre.length = 0 := by
      have h := byteAt_append_right pre ([0] ++ post) 0
      simpa using h
    have hlen : ¬ (pre ++ ([0] ++ post)).length ≤ pre.length := by
      simp
    simp only [decodeNameLoop, hb, hlen, ite_true, ite_false, if_false]
    norm_num
  | label L lab rest h1 h2 h3 h4 ih =>
    intro fuel pre post name bc hfuel
    have hlen_n : (L :: (lab ++ rest)).length = 1 + L + rest.length := by
      simp [h3]
      omega
    obtain ⟨f, rfl⟩ : ∃ f, fuel = f + 1 := ⟨fuel - 1, by omega⟩
    have hb : byteAt (pre ++ ((L :: (lab ++ rest)) ++ post)) pre.length = L := by
      have h := byteAt_append_right pre ((L :: (lab ++ rest)) ++ post) 0
      simpa using h
    have hptr : ¬ (L &&& 192 = 192) := by
      have hle : L &&& 192 ≤ L := Nat.and_le_left
      omega
    have hzero : ¬ (L = 0) := by omega
    have hlen1 : ¬ (pre ++ ((L :: (lab ++ rest)) ++ post)).length ≤ pre.length := by
      simp
    have hlen2 : ¬ ((pre ++ ((L :: (lab ++ rest)) ++ post)).length < pre.length + 1 + L) := by
      simp [h3]
      omega
    simp only [decodeNameLoop, hb, hlen1, hptr, hzero, hlen2, ite_true, ite_false, if_false,
      Bool.false_eq_true]
    have hslice : ((pre ++ ((L :: (lab ++ rest)) ++ post)).drop (pre.length + 1)).take L = lab := by
      have hd : pre ++ ((L :: (lab ++ rest)) ++ post)
          = (pre ++ [L]) ++ (lab ++ (rest ++ post)) := by simp
      rw [hd, show pre.length + 1 = (pre ++ [L]).length by simp, List.drop_left,
        ← h3, List.take_left]
    rw [hslice]
    have hd2 : pre ++ ((L :: (lab ++ rest)) ++ post)
        = (pre ++ (L :: lab)) ++ (rest ++ post) := by simp
    have hplen : pre.length + 1 + L = (pre ++ (L :: lab)).length := by simp [h3]; omega
    rw [hd2, hplen]
    have hrec := ih f (pre ++ (L :: lab)) post (name ++ (L :: lab)) (bc + 1 + L) (by omega)
    rw [hrec]
    simp only [Option.some.injEq, Prod.mk.injEq, List.cons_append, List.append_assoc,
      List.length_cons, List.length_append]
    exact ⟨trivial, by omega⟩


lemma decodeName_valid (n : Bytes) (hn : ValidName n) (post : Bytes)
    (hlen : n.length ≤ 1000) :
    decodeName (n ++ post) 0 = some (n, n.length) := by
  have h := decodeNameLoop_valid n hn 1000 [] post [] 0 hlen
  simpa [decodeName, maxLoops] using h

lemma header_roundtrip (h : DNSHeader) (h1 : h.ID < 65536) (h2 : h.Flags < 65536)
    (h3 : h.QDCount < 65536) (h4 : h.ANCount < 65536) (h5 : h.NSCount < 65536)
    (h6 : h.ARCount < 65536) : headerParse (headerEncode h) = some h := by
  obtain ⟨i, fl, qd, an, ns, ar⟩ := h
  have e : headerParse (headerEncode ⟨i, fl, qd, an, ns, ar⟩) =
      some ⟨i / 256 % 256 * 256 + i % 256, fl / 256 % 256 * 256 + fl % 256,
            qd / 256 % 256 * 256 + qd % 256, an / 256 % 256 * 256 + an % 256,
            ns / 256 % 256 * 256 + ns % 256, ar / 256 % 256 * 256 + ar % 256⟩ := rfl
  rw [e]
  simp only [Option.some.injEq, DNSHeader.mk.injEq] at *
  refine ⟨by omega, by omega, by omega, by omega, by omega, by omega⟩

lemma question_roundtrip (q : Question) (hv : ValidName q.QName)
    (hlen : q.QName.length ≤ 255) (ht : q.QType < 65536) (hc : q.QClass < 65536) :
    questionParse (questionEncode q) 0 = some (q, (questionEncode q).length) := by
  obtain ⟨qn, t, c⟩ := q
  simp only at hv hlen ht hc
  have henc : questionEncode ⟨qn, t, c⟩ = qn ++ (enc16 t ++ enc16 c) := by
    simp [questionEncode]
  rw [henc]
  unfold questionParse
  rw [decodeName_valid qn hv _ (by omega)]
  have hL : (qn ++ (enc16 t ++ enc16 c)).length = qn.length + 4 := by simp [enc16]
  have hg : ¬ ((qn ++ (enc16 t ++ enc16 c)).length < 0 + qn.length + 4) := by omega
  simp only [hg, ite_false, if_false, Nat.zero_add]
  have hb0 : be16 (qn ++ (enc16 t ++ enc16 c)) qn.length = t := by
    have h := be16_append_right qn (enc16 t ++ enc16 c) 0
    norm_num at h
    rw [h]
    show t / 256 % 256 * 256 + t % 256 = t
    omega
  have hb2 : be16 (qn ++ (enc16 t ++ enc16 c)) (qn.length + 2) = c := by
    rw [be16_append_right qn (enc16 t ++ enc16 c) 2]
    show c / 256 % 256 * 256 + c % 256 = c
    omega
  rw [hb0, hb2, hL]
  simp


lemma be32_append_right (l m : Bytes) (k : Nat) :
    be32 (l ++ m) (l.length + k) = be32 m k := by
  unfold be32
  rw [byteAt_append_right, show l.length + k + 1 = l.length + (k + 1) by omega,
    byteAt_append_right, show l.length + k + 2 = l.length + (k + 2) by omega,
    byteAt_append_right, show l.length + k + 3 = l.length + (k + 3) by omega,
    byteAt_append_right]

lemma answer_roundtrip (a : DNSAnswer) (hv : ValidName a.Name)
    (hlen : a.Name.length ≤ 255) (ht : a.Type' < 65536) (hc : a.Class < 65536)
    (httl : a.TTL < 4294967296) (hr16 : a.RDLength < 65536)
    (hrr : a.RDLength = a.RData.length) :
    answerParse (answerEncode a) 0 = some (a, (answerEncode a).length) := by
  obtain ⟨nm, ty, cl, ttl, rdl, rd⟩ := a
  simp only at hv hlen ht hc httl hr16 hrr
  have henc : answerEncode ⟨nm, ty, cl, ttl, rdl, rd⟩
      = nm ++ (enc16 ty ++ (enc16 cl ++ (enc32 ttl ++ (enc16 rdl ++ rd)))) := by
    simp [answerEncode]
  rw [henc]
  unfold answerParse
  rw [decodeName_valid nm hv _ (by omega)]
  have hL : (nm ++ (enc16 ty ++ (enc16 cl ++ (enc32 ttl ++ (enc16 rdl ++ rd))))).length
      = nm.length + (10 + rd.length) := by
    simp [enc16, enc32]
    omega
  have hg1 : ¬ ((nm ++ (enc16 ty ++ (enc16 cl ++ (enc32 ttl ++ (enc16 rdl ++ rd))))).length
      < 0 + nm.length + 10) := by omega
  simp only [hg1, ite_false, if_false, Nat.zero_add]
  have hb8 : be16 (nm ++ (enc16 ty ++ (enc16 cl ++ (enc32 ttl ++ (enc16 rdl ++ rd)))))
      (nm.length + 8) = rdl := by
    rw [be16_append_right nm _ 8]
    show rdl / 256 % 256 * 256 + rdl % 256 = rdl
    omega
  rw [hb8]
  have hg2 : ¬ ((nm ++ (enc16 ty ++ (enc16 cl ++ (enc32 ttl ++ (enc16 rdl ++ rd))))).length
      < nm.length + 10 + rdl) := by omega
  rw [if_neg hg2]
  have hb0 : be16 (nm ++ (enc16 ty ++ (enc16 cl ++ (enc32 ttl ++ (enc16 rdl ++ rd)))))
      nm.length = ty := by
    have h := be16_append_right nm (enc16 ty ++ (enc16 cl ++ (enc32 ttl ++ (enc16 rdl ++ rd)))) 0
    norm_num at h
    rw [h]
    show ty / 256 % 256 * 256 + ty % 256 = ty
    omega
  have hb2 : be16 (nm ++ (enc16 ty ++ (enc16 cl ++ (enc32 ttl ++ (enc16 rdl ++ rd)))))
      (nm.length + 2) = cl := by
    rw [be16_append_right nm _ 2]
    show cl / 256 % 256 * 256 + cl % 256 = cl
    omega
  have hb4 : be32 (nm ++ (enc16 ty ++ (enc16 cl ++ (enc32 ttl ++ (enc16 rdl ++ rd)))))
      (nm.length + 4) = ttl := by
    rw [be32_append_right nm _ 4]
    show ((ttl / 16777216 % 256 * 256 + ttl / 65536 % 256) * 256 + ttl / 256 % 256) * 256
      + ttl % 256 = ttl
    omega
  have hslice : (((nm ++ (enc16 ty ++ (enc16 cl ++ (enc32 ttl ++ (enc16 rdl ++ rd))))).drop
      (nm.length + 10)).take rdl) = rd := by
    have hd : nm ++ (enc16 ty ++ (enc16 cl ++ (enc32 ttl ++ (enc16 rdl ++ rd))))
        = (nm ++ (enc16 ty ++ (enc16 cl ++ (enc32 ttl ++ enc16 rdl)))) ++ rd := by
      simp [List.append_assoc]
    rw [hd, show nm.length + 10
        = (nm ++ (enc16 ty ++ (enc16 cl ++ (enc32 ttl ++ enc16 rdl)))).length by
      simp [enc16, enc32], List.drop_left, hrr, List.take_length]
  rw [hb0, hb2, hb4, hslice, hL]
  rw [if_neg (by omega)]
  simp only [Option.some.injEq, Prod.mk.injEq]
  exact ⟨trivial, by omega⟩


/-- C8: round-trip — decoding `Encode`'s output returns the original record
and consumes exactly the encoded length, for every 16-bit-valued header and
every validly-constructed question and answer (expanded name of 1–63-byte
labels ending in a single zero byte and within RFC1035's 255-byte name cap,
16/32-bit numeric fields, RDATA of length RDLENGTH). -/
theorem c8_roundtrip :
    (∀ h : DNSHeader, h.ID < 65536 → h.Flags < 65536 → h.QDCount < 65536 →
      h.ANCount < 65536 → h.NSCount < 65536 → h.ARCount < 65536 →
      headerParse (headerEncode h) = some h) ∧
    (∀ q : Question, ValidName q.QName → q.QName.length ≤ 255 → q.QType < 65536 →
      q.QClass < 65536 →
      questionParse (questionEncode q) 0 = some (q, (questionEncode q).length)) ∧
    (∀ a : DNSAnswer, ValidName a.Name → a.Name.length ≤ 255 → a.Type' < 65536 →
      a.Class < 65536 → a.TTL < 4294967296 → a.RDLength < 65536 →
      a.RDLength = a.RData.length →
      answerParse (answerEncode a) 0 = some (a, (answerEncode a).length)) :=
  ⟨fun h h1 h2 h3 h4 h5 h6 => header_roundtrip h h1 h2 h3 h4 h5 h6,
   fun q hv hl ht hc => question_roundtrip q hv hl ht hc,
   fun a hv hl ht hc httl hr16 hrr => answer_roundtrip a hv hl ht hc httl hr16 hrr⟩

/-- C8 witness: the three round trips at concrete records — a header, the
question `a.` type 1 class 1, and an A answer for `a.` with RDATA 8.8.8.8. -/
theorem c8_roundtrip_witness :
    headerParse (headerEncode ⟨4660, 10501, 1, 2, 3, 4⟩) = some ⟨4660, 10501, 1, 2, 3, 4⟩ ∧
    questionParse (questionEncode ⟨[1, 97, 0], 1, 1⟩) 0 = some (⟨[1, 97, 0], 1, 1⟩, 7) ∧
    answerParse (answerEncode ⟨[1, 97, 0], 1, 1, 60, 4, [8, 8, 8, 8]⟩) 0
      = some (⟨[1, 97, 0], 1, 1, 60, 4, [8, 8, 8, 8]⟩, 17) := by
  have vn : ValidName [1, 97, 0] :=
    ValidName.label 1 [97] [0] (by decide) (by decide) rfl ValidName.term
  exact ⟨c8_roundtrip.1 ⟨4660, 10501, 1, 2, 3, 4⟩ (by decide) (by decide) (by decide)
      (by decide) (by decide) (by decide),
    c8_roundtrip.2.1 ⟨[1, 97, 0], 1, 1⟩ vn (by decide) (by decide) (by decide),
    c8_roundtrip.2.2 ⟨[1, 97, 0], 1, 1, 60, 4, [8, 8, 8, 8]⟩ vn (by decide) (by decide)
      (by decide) (by decide) (by decide) rfl⟩


/-- Go zero value for a `Question` (used only as a `getD` default). -/
def defaultQuestion : Question := ⟨[], 0, 0⟩

/-- Go zero value for a `DNSAnswer` (used only as a `getD` default). -/
def defaultAnswer : DNSAnswer := ⟨[], 0, 0, 0, 0, []⟩

/-- C6: `DNSMessage.BuildResponse` on a request with `n` questions yields the
4.2 response header with QDCOUNT and ANCOUNT both `n`, the questions
unchanged and in order, and for each position `i` an answer with the
question's name, TYPE and CLASS, TTL 60, RDLENGTH 4 and RDATA 8.8.8.8. -/
theorem c6_standalone_response (msg : DNSMessage) (hn : msg.Questions.length < 65536) :
    (msgBuildResponse msg).Header
      = { headerBuildResponse msg.Header with
          QDCount := msg.Questions.length, ANCount := msg.Questions.length } ∧
    (msgBuildResponse msg).Questions = msg.Questions ∧
    (msgBuildResponse msg).Answers.length = msg.Questions.length ∧
    ∀ i, i < msg.Questions.length →
      (msgBuildResponse msg).Answers.getD i defaultAnswer
        = { Name := (msg.Questions.getD i defaultQuestion).QName,
            Type' := (msg.Questions.getD i defaultQuestion).QType,
            Class := (msg.Questions.getD i defaultQuestion).QClass,
            TTL := 60, RDLength := 4, RData := [8, 8, 8, 8] } := by
  refine ⟨?_, rfl, by simp [msgBuildResponse], ?_⟩
  · simp [msgBuildResponse, u16, Nat.mod_eq_of_lt hn]
  · intro i hi
    simp only [msgBuildResponse]
    rw [List.getD_eq_getElem _ _ (by simpa using hi), List.getElem_map,
      List.getD_eq_getElem _ _ hi]

/-- A one-question request used to instantiate C6. -/
def c6Msg : DNSMessage := ⟨⟨17, 0, 1, 0, 0, 0⟩, [⟨[1, 97, 0], 1, 1⟩], []⟩

/-- C6 witness: the standalone response for `c6Msg`. -/
theorem c6_standalone_response_witness :
    (msgBuildResponse c6Msg).Questions = c6Msg.Questions ∧
    (msgBuildResponse c6Msg).Answers.getD 0 defaultAnswer
      = ⟨[1, 97, 0], 1, 1, 60, 4, [8, 8, 8, 8]⟩ ∧
    (msgBuildResponse c6Msg).Header.ANCount = 1 :=
  ⟨(c6_standalone_response c6Msg (by decide)).2.1,
   ((c6_standalone_response c6Msg (by decide)).2.2.2 0 (by decide)).trans (by decide),
   by
    have h := (c6_standalone_response c6Msg (by decide)).1
    rw [show (msgBuildResponse c6Msg).Header.ANCount
        = ({ headerBuildResponse c6Msg.Header with
             QDCount := c6Msg.Questions.length,
             ANCount := c6Msg.Questions.length } : DNSHeader).ANCount from by rw [h]]
    decide⟩



/-- The answer accumulator of `forwardMultipleQuestions` is the in-order
concatenation of each sub-query's answers, sub-query `i` before `i+1`. -/
lemma collectAnswersLoop_eq (net : Upstream) (request : DNSMessage) :
    ∀ (qs : List Question) (i : Nat) (acc : List DNSAnswer),
      collectAnswersLoop net request qs i acc
        = acc ++ ((qs.enumFrom i).map
            (fun p => subQueryAnswers net request p.1 p.2)).flatten := by
  intro qs
  induction qs with
  | nil => intro i acc; simp [collectAnswersLoop]
  | cons q rest ih =>
    intro i acc
    simp only [collectAnswersLoop, List.enumFrom, List.map_cons, List.flatten_cons]
    rw [ih (i + 1)]
    simp [List.append_assoc]

/-- Pointwise-equal sub-query results give equal accumulators. -/
lemma collectAnswersLoop_congr (net net' : Upstream) (request : DNSMessage) :
    ∀ (qs : List Question) (i : Nat) (acc : List DNSAnswer),
      (∀ k, k < qs.length →
        subQueryAnswers net request (i + k) (qs.getD k defaultQuestion)
          = subQueryAnswers net' request (i + k) (qs.getD k defaultQuestion)) →
      collectAnswersLoop net request qs i acc = collectAnswersLoop net' request qs i acc := by
  intro qs
  induction qs with
  | nil => intro i acc _; rfl
  | cons q rest ih =>
    intro i acc h
    simp only [collectAnswersLoop]
    have h0 := h 0 (by simp)
    simp only [Nat.add_zero, List.getD_cons_zero] at h0
    rw [h0]
    exact ih (i + 1) _ (fun k hk => by
      have := h (k + 1) (by simpa using hk)
      simpa [Nat.add_assoc, Nat.add_comm 1 k] using this)

/-- C3: on a resolver-configured request with more than one question, each
sub-query is the synthetic single-question message with the original ID and
flags, QDCOUNT=1 and ANCOUNT=0, and the merged response keeps the original
ID, carries the 4.2 response flags of the original header, QDCOUNT = the
question count, ANCOUNT = the number of collected answers, NSCOUNT=ARCOUNT=0,
the original questions unchanged, and the concatenation of the sub-queries'
answers in question order. -/
theorem c3_split_and_merge (net : Upstream) (request : DNSMessage)
    (hq : 1 < request.Questions.length)
    (hn : request.Questions.length < 65536)
    (ha : (((request.Questions.enumFrom 0).map
        (fun p => subQueryAnswers net request p.1 p.2)).flatten).length < 65536) :
    (∀ q : Question,
      (subQuery request q).Header = ⟨request.Header.ID, request.Header.Flags, 1, 0, 0, 0⟩ ∧
      (subQuery request q).Questions = [q] ∧ (subQuery request q).Answers = []) ∧
    (mergedMessage net request).Header.ID = request.Header.ID ∧
    (mergedMessage net request).Header.Flags = (headerBuildResponse request.Header).Flags ∧
    (mergedMessage net request).Header.QDCount = request.Questions.length ∧
    (mergedMessage net request).Header.ANCount
      = (((request.Questions.enumFrom 0).map
          (fun p => subQueryAnswers net request p.1 p.2)).flatten).length ∧
    (mergedMessage net request).Header.NSCount = 0 ∧
    (mergedMessage net request).Header.ARCount = 0 ∧
    (mergedMessage net request).Questions = request.Questions ∧
    (mergedMessage net request).Answers
      = ((request.Questions.enumFrom 0).map
          (fun p => subQueryAnswers net request p.1 p.2)).flatten := by
  have hcoll : collectAnswersLoop net request request.Questions 0 []
      = ((request.Questions.enumFrom 0).map
          (fun p => subQueryAnswers net request p.1 p.2)).flatten := by
    rw [collectAnswersLoop_eq]
    simp
  refine ⟨fun q => ⟨rfl, rfl, rfl⟩, rfl, rfl, ?_, ?_, rfl, rfl, rfl, ?_⟩
  · simp [mergedMessage, u16, Nat.mod_eq_of_lt hn]
  · simp only [mergedMessage, hcoll]
    exact Nat.mod_eq_of_lt ha
  · simp only [mergedMessage, hcoll]


/-- A two-question request (ID 0xABCD, RD set) used to instantiate the
forwarding claims. -/
def c3Req : DNSMessage :=
  ⟨⟨43981, 256, 2, 0, 0, 0⟩, [⟨[1, 97, 0], 1, 1⟩, ⟨[1, 98, 0], 1, 1⟩], []⟩

/-- An upstream reply datagram: ID 9, QR set, no questions, one A answer
for the root name with RDATA 8.8.8.8. -/
def c3Reply : Bytes :=
  [0, 9, 128, 0, 0, 0, 0, 1, 0, 0, 0, 0] ++
    [0, 0, 1, 0, 1, 0, 0, 0, 60, 0, 4, 8, 8, 8, 8]

/-- An upstream that answers every exchange with `c3Reply`. -/
def c3Net : Upstream := fun _ _ => some c3Reply

/-- C3 witness: the merged response for `c3Req` against `c3Net` keeps the
ID, reports two questions and two collected answers, and repeats the
original questions. -/
theorem c3_witness :
    (mergedMessage c3Net c3Req).Header.ID = 43981 ∧
    (mergedMessage c3Net c3Req).Header.QDCount = 2 ∧
    (mergedMessage c3Net c3Req).Header.ANCount = 2 ∧
    (mergedMessage c3Net c3Req).Questions = c3Req.Questions := by
  have h := c3_split_and_merge c3Net c3Req (by decide) (by decide) (by decide)
  exact ⟨h.2.1, h.2.2.2.1.trans (by decide), h.2.2.2.2.1.trans (by decide),
    h.2.2.2.2.2.2.2.1⟩

/-- A sub-query failure in the sense of section 7: the upstream exchange
fails outright (`UpstreamUnreachable`) or its reply does not parse
(`UpstreamDecodeFailure`). -/
def subFails (net : Upstream) (request : DNSMessage) (i : Nat) (q : Question) : Prop :=
  net i (msgEncode (subQuery request q)) = none ∨
  ∃ bytes, net i (msgEncode (subQuery request q)) = some bytes ∧ parseComplete bytes = none

/-- A failed sub-query contributes no answers. -/
lemma subQueryAnswers_of_fail (net : Upstream) (request : DNSMessage) (i : Nat)
    (q : Question) (h : subFails net request i q) :
    subQueryAnswers net request i q = [] := by
  unfold subQueryAnswers
  rcases h with h | ⟨bytes, h1, h2⟩
  · rw [h]
  · rw [h1]
    simp only [h2]

/-- C7: a failure on sub-query `j` of Forward-multi (upstream unreachable or
reply undecodable) is non-fatal — the merged response is exactly the one
obtained with exchange `j` dropped and all other questions still processed,
and it still answers the original questions. -/
theorem c7_subquery_failure_nonfatal (net : Upstream) (request : DNSMessage) (j : Nat)
    (hj : j < request.Questions.length)
    (hfail : subFails net request j (request.Questions.getD j defaultQuestion)) :
    mergedMessage net request
      = mergedMessage (fun i b => if i = j then none else net i b) request ∧
    (mergedMessage net request).Questions = request.Questions := by
  have hcoll : collectAnswersLoop net request request.Questions 0 []
      = collectAnswersLoop (fun i b => if i = j then none else net i b) request
          request.Questions 0 [] := by
    apply collectAnswersLoop_congr
    intro k hk
    simp only [Nat.zero_add]
    by_cases hkj : k = j
    · subst hkj
      rw [subQueryAnswers_of_fail net request k _ hfail,
        subQueryAnswers_of_fail _ request k _ (Or.inl (by simp))]
    · have hnet : ∀ b, (if k = j then none else net k b) = net k b := fun b => by simp [hkj]
      simp [subQueryAnswers, hnet]
  exact ⟨by simp only [mergedMessage, hcoll], rfl⟩

/-- An upstream whose first exchange fails and whose others return `c3Reply`. -/
def c7Net : Upstream := fun i _ => if i = 0 then none else some c3Reply

/-- C7 witness: with the first sub-query failing, the merged response equals
the one computed with that exchange dropped. -/
theorem c7_witness :
    mergedMessage c7Net c3Req
      = mergedMessage (fun i b => if i = 0 then none else c7Net i b) c3Req ∧
    (mergedMessage c7Net c3Req).Questions = c3Req.Questions :=
  c7_subquery_failure_nonfatal c7Net c3Req 0 (by decide) (Or.inl rfl)

/-- C10: the merged Forward-multi response depends on the upstream replies
only through their Answer sections — two networks whose corresponding
replies both parse and have identical answers (but arbitrary IDs, flags or
question sections) produce byte-identical merged responses. -/
theorem c10_depends_only_on_answers (request : DNSMessage) (net1 net2 : Upstream)
    (h : ∀ i, i < request.Questions.length →
      ∃ b1 b2 m1 m2,
        net1 i (msgEncode (subQuery request (request.Questions.getD i defaultQuestion)))
          = some b1 ∧
        net2 i (msgEncode (subQuery request (request.Questions.getD i defaultQuestion)))
          = some b2 ∧
        parseComplete b1 = some m1 ∧ parseComplete b2 = some m2 ∧
        m1.Answers = m2.Answers) :
    forwardMultipleQuestions net1 request = forwardMultipleQuestions net2 request := by
  have hcoll : collectAnswersLoop net1 request request.Questions 0 []
      = collectAnswersLoop net2 request request.Questions 0 [] := by
    apply collectAnswersLoop_congr
    intro k hk
    simp only [Nat.zero_add]
    obtain ⟨b1, b2, m1, m2, h1, h2, h3, h4, h5⟩ := h k hk
    unfold subQueryAnswers
    simp only [h1, h2, h3, h4, h5]
  unfold forwardMultipleQuestions
  simp only [mergedMessage, hcoll]

/-- A reply with ID 1 and zero flags carrying one A answer. -/
def c10r1 : Bytes :=
  [0, 1, 0, 0, 0, 0, 0, 1, 0, 0, 0, 0] ++
    [0, 0, 1, 0, 1, 0, 0, 0, 60, 0, 4, 8, 8, 8, 8]

/-- A reply with ID 2 and response flags carrying the same A answer. -/
def c10r2 : Bytes :=
  [0, 2, 129, 128, 0, 0, 0, 1, 0, 0, 0, 0] ++
    [0, 0, 1, 0, 1, 0, 0, 0, 60, 0, 4, 8, 8, 8, 8]

/-- C10 witness: two upstreams answering with `c10r1` and `c10r2` — equal
answers, different reply IDs and flags — give byte-identical merged
responses. -/
theorem c10_witness :
    forwardMultipleQuestions (fun _ _ => some c10r1) c3Req
      = forwardMultipleQuestions (fun _ _ => some c10r2) c3Req := by
  apply c10_depends_only_on_answers
  intro i hi
  exact ⟨c10r1, c10r2, ⟨⟨1, 0, 0, 1, 0, 0⟩, [], [⟨[0], 1, 1, 60, 4, [8, 8, 8, 8]⟩]⟩,
    ⟨⟨2, 33152, 0, 1, 0, 0⟩, [], [⟨[0], 1, 1, 60, 4, [8, 8, 8, 8]⟩]⟩,
    rfl, rfl, by decide, by decide, rfl⟩


end DnsGo
